import Mathlib

/-
  Verification development for the DriftShell repository
  (src/hackterm_game.py): a shallow embedding of the game's
  node-gating and world-state progression engine, followed by
  theorems about its specified properties.

  Modelling conventions:
  * Python sets become `Finset String`; Python lists become `List String`.
  * Python dict lookups that can raise `KeyError` become `Option`-valued
    functions; a `none` result models an uncaught exception (the process
    would crash at that point, so no further state is observable).
  * Printed output (the `show`/`print` calls) is display-only I/O glue and
    is modelled only where a claim depends on the emitted message
    (`run_script` outcomes and the `load` command's reports).  Narrative
    text bodies of non-cipher files never flow back into the player state
    and are omitted from the embedding; cipher file contents do flow into
    `last_cipher` and are embedded verbatim.
  * Python string methods used by the game (`.lower()`, `.upper()`,
    `.strip()`, membership `in`) are embedded for the ASCII texts the game
    manipulates.
-/

/-! ### Character and string helpers (mirroring the Python string methods) -/

/-- ASCII lower-casing of one character, as `str.lower()` acts on the
game's ASCII command words. -/
def lowerChar (c : Char) : Char :=
  if 65 ≤ c.toNat ∧ c.toNat ≤ 90 then Char.ofNat (c.toNat + 32) else c

/-- ASCII upper-casing of one character, as `str.upper()` acts on the
game's ASCII decode results. -/
def upperChar (c : Char) : Char :=
  if 97 ≤ c.toNat ∧ c.toNat ≤ 122 then Char.ofNat (c.toNat - 32) else c

/-- `str.lower()` on ASCII text. -/
def asciiLower (s : String) : String := ⟨s.data.map lowerChar⟩

/-- `str.upper()` on ASCII text. -/
def asciiUpper (s : String) : String := ⟨s.data.map upperChar⟩

/-- The characters `str.strip()` removes (ASCII whitespace). -/
def isPySpace (c : Char) : Bool :=
  c = ' ' || c = '\t' || c = '\n' || c = '\r' || c.toNat = 11 || c.toNat = 12

/-- `str.strip()`. -/
def pyStrip (s : String) : String :=
  ⟨((s.data.dropWhile isPySpace).reverse.dropWhile isPySpace).reverse⟩

/-- Does the first list lead (start) the second?  Helper for substring and
suffix tests. -/
def leadsL : List Char → List Char → Bool
  | [], _ => true
  | _ :: _, [] => false
  | a :: as, b :: bs => a = b && leadsL as bs

/-- Substring containment over characters: Python's `needle in hay`. -/
def hasSub (needle : List Char) : List Char → Bool
  | [] => leadsL needle []
  | h :: t => leadsL needle (h :: t) || hasSub needle t

/-- Python's `raw.endswith(suffix)` for the fixed suffix `".s"` used by
`cmd_run`. -/
def endsDotS (raw : String) : Bool :=
  leadsL ['s', '.'] raw.data.reverse

/-- One character of the `rot_13` codec: ASCII letters rotate by 13
positions within their case, everything else passes through. -/
def rot13Char (c : Char) : Char :=
  if 65 ≤ c.toNat ∧ c.toNat ≤ 90 then Char.ofNat (65 + (c.toNat - 65 + 13) % 26)
  else if 97 ≤ c.toNat ∧ c.toNat ≤ 122 then Char.ofNat (97 + (c.toNat - 97 + 13) % 26)
  else c

/-- `codecs.decode(payload, "rot_13")`. -/
def rot13 (s : String) : String := ⟨s.data.map rot13Char⟩

/-! ### Base64 decoding (`base64.b64decode(..., validate=True)`) and UTF-8
decoding with replacement (`bytes.decode("utf-8", errors="replace")`). -/

/-- The value of one character of the standard base64 alphabet. -/
def b64Val (c : Char) : Option Nat :=
  if 65 ≤ c.toNat ∧ c.toNat ≤ 90 then some (c.toNat - 65)
  else if 97 ≤ c.toNat ∧ c.toNat ≤ 122 then some (c.toNat - 97 + 26)
  else if 48 ≤ c.toNat ∧ c.toNat ≤ 57 then some (c.toNat - 48 + 52)
  else if c = '+' then some 62
  else if c = '/' then some 63
  else none

/-- Decode base64 in groups of four characters; padding `=` may appear only
in the final group.  A `none` result models the `binascii.Error` raised for
non-alphabet characters or incorrect padding. -/
def b64Groups : List Char → Option (List Nat)
  | [] => some []
  | a :: b :: c :: d :: rest =>
    match b64Val a, b64Val b with
    | some va, some vb =>
      if c = '=' then
        if d = '=' ∧ rest = [] then some [va * 4 + vb / 16] else none
      else
        match b64Val c with
        | some vc =>
          if d = '=' then
            if rest = [] then some [va * 4 + vb / 16, (vb % 16) * 16 + vc / 4]
            else none
          else
            match b64Val d with
            | some vd =>
              (b64Groups rest).map
                (fun tail =>
                  (va * 4 + vb / 16) :: ((vb % 16) * 16 + vc / 4) ::
                    ((vc % 4) * 64 + vd) :: tail)
            | none => none
        | none => none
    | _, _ => none
  | _ => none

/-- `base64.b64decode(payload.encode("utf-8"), validate=True)`: the
payload's characters must come from the base64 alphabet (plus terminal
padding) and form complete groups of four; any other input raises.  The
game only ever decodes well-formed ASCII payloads. -/
def b64Decode (payload : String) : Option (List Nat) :=
  b64Groups payload.data

/-- Is a byte a UTF-8 continuation byte? -/
def isCont (b : Nat) : Bool := 128 ≤ b ∧ b ≤ 191

/-- The replacement character U+FFFD used by `errors="replace"`. -/
def replChar : Char := Char.ofNat 65533

/-- UTF-8 decoding with replacement of invalid sequences, as
`bytes.decode("utf-8", errors="replace")`: a malformed or truncated
sequence contributes one replacement character for its maximal valid
subpart.  The game's payloads decode to plain ASCII, so the replacement
branches are never exercised by the claims.  Fuel-based recursion: every
step consumes at least one byte, so fuel equal to the byte count is
always sufficient. -/
def utf8ReplaceAux : Nat → List Nat → List Char
  | 0, _ => []
  | _ + 1, [] => []
  | fuel + 1, b :: rest =>
    if b < 128 then Char.ofNat b :: utf8ReplaceAux fuel rest
    else if 194 ≤ b ∧ b ≤ 223 then
      match rest with
      | c1 :: rest2 =>
        if isCont c1 then Char.ofNat ((b - 192) * 64 + (c1 - 128)) :: utf8ReplaceAux fuel rest2
        else replChar :: utf8ReplaceAux fuel rest
      | [] => [replChar]
    else if 224 ≤ b ∧ b ≤ 239 then
      match rest with
      | c1 :: rest2 =>
        if (if b = 224 then 160 ≤ c1 ∧ c1 ≤ 191
            else if b = 237 then 128 ≤ c1 ∧ c1 ≤ 159
            else isCont c1 = true) then
          match rest2 with
          | c2 :: rest3 =>
            if isCont c2 then
              Char.ofNat ((b - 224) * 4096 + (c1 - 128) * 64 + (c2 - 128)) ::
                utf8ReplaceAux fuel rest3
            else replChar :: utf8ReplaceAux fuel rest2
          | [] => [replChar]
        else replChar :: utf8ReplaceAux fuel rest
      | [] => [replChar]
    else if 240 ≤ b ∧ b ≤ 244 then
      match rest with
      | c1 :: rest2 =>
        if (if b = 240 then 144 ≤ c1 ∧ c1 ≤ 191
            else if b = 244 then 128 ≤ c1 ∧ c1 ≤ 143
            else isCont c1 = true) then
          match rest2 with
          | c2 :: rest3 =>
            if isCont c2 then
              match rest3 with
              | c3 :: rest4 =>
                if isCont c3 then
                  Char.ofNat ((b - 240) * 262144 + (c1 - 128) * 4096 +
                      (c2 - 128) * 64 + (c3 - 128)) :: utf8ReplaceAux fuel rest4
                else replChar :: utf8ReplaceAux fuel rest3
              | [] => [replChar]
            else replChar :: utf8ReplaceAux fuel rest2
          | [] => [replChar]
        else replChar :: utf8ReplaceAux fuel rest
      | [] => [replChar]
    else replChar :: utf8ReplaceAux fuel rest

/-- UTF-8 decode with replacement, run with sufficient fuel. -/
def utf8Replace (bytes : List Nat) : List Char :=
  utf8ReplaceAux bytes.length bytes

/-! ### The world definition (the `NODES` table) -/

/-- The `type` field of a file entry. -/
inductive FType where
  | text
  | script
  | item
deriving DecidableEq

/-- One file entry of a node.  Narrative `content` of non-cipher files is
display-only (it never enters the player state) and is omitted; cipher
contents are embedded verbatim because `cmd_cat` caches them in
`last_cipher`. -/
structure GFile where
  ftype : FType
  cipher : Bool
  downloadable : Bool
  script_id : Option String
  item_id : Option String
  content : Option String
deriving DecidableEq

/-- A plain narrative text file. -/
def textFile : GFile :=
  { ftype := .text, cipher := false, downloadable := false
    script_id := none, item_id := none, content := none }

/-- A cipher text file with its verbatim content. -/
def cipherFile (c : String) : GFile :=
  { ftype := .text, cipher := true, downloadable := false
    script_id := none, item_id := none, content := some c }

/-- A downloadable script file. -/
def scriptFile (sid : String) : GFile :=
  { ftype := .script, cipher := false, downloadable := true
    script_id := some sid, item_id := none, content := none }

/-- A downloadable item file. -/
def itemFile (iid : String) : GFile :=
  { ftype := .item, cipher := false, downloadable := true
    script_id := none, item_id := some iid, content := none }

/-- One node of the world definition. -/
structure Node where
  title : String
  entry_items : List String
  entry_flags : List String
  links : List String
  files : List (String × GFile)
deriving DecidableEq

def hubHome : Node :=
  { title := "HUB/HOME", entry_items := [], entry_flags := []
    links := ["market.node", "perimeter.gate"]
    files := [("readme.txt", textFile), ("message.txt", textFile),
              ("tracer.s", scriptFile "tracer")] }

def marketNode : Node :=
  { title := "SCRAP EXCHANGE", entry_items := [], entry_flags := ["trace_open"]
    links := ["hub.home", "perimeter.gate", "weaver.den"]
    files := [("stall.log", textFile), ("rumor.txt", textFile),
              ("sniffer.s", scriptFile "sniffer"), ("spoof.s", scriptFile "spoof")] }

def weaverDen : Node :=
  { title := "WEAVER.DEN", entry_items := [], entry_flags := ["sniffer_run"]
    links := ["market.node", "archives.arc", "corp.audit"]
    files := [("weaver.log", textFile), ("weaver.mark", itemFile "weaver.mark"),
              ("splice.s", scriptFile "splice"), ("ghost.s", scriptFile "ghost")] }

def corpAudit : Node :=
  { title := "CORP.AUDIT", entry_items := [], entry_flags := ["ghosted"]
    links := ["weaver.den"]
    files := [("audit.log", textFile), ("relay.shard", itemFile "relay.shard")] }

def latticeCache : Node :=
  { title := "LATTICE.CACHE"
    entry_items := ["token.key", "weaver.mark"], entry_flags := ["lattice_sigil"]
    links := ["archives.arc", "core.relic"]
    files := [("cache.log", textFile),
              ("cache.rot13", cipherFile "gur eryvp xrl jnvgf va gur pnpur."),
              ("relic.key", itemFile "relic.key")] }

def perimeterGate : Node :=
  { title := "PERIMETER.GATE", entry_items := [], entry_flags := ["trace_open"]
    links := ["hub.home", "market.node", "archives.arc"]
    files := [("access.log", textFile),
              ("cipher.txt",
               cipherFile "rzore vf gur qevsg. gur nepuvir jnagf n onqtr naq n znfx."),
              ("badge.sig", itemFile "badge.sig")] }

def archivesArc : Node :=
  { title := "SABLE ARCHIVE"
    entry_items := ["badge.sig", "mask.dat"], entry_flags := ["ember_phrase"]
    links := ["perimeter.gate", "weaver.den", "lattice.cache"]
    files := [("lore.log", textFile), ("weaver.note", textFile),
              ("key.b64", cipherFile "U0lHSUw6IExBVFRJQ0U="),
              ("fork.s", scriptFile "fork")] }

def coreRelic : Node :=
  { title := "CORE RELIC"
    entry_items := ["relay.shard", "relic.key"]
    entry_flags := ["lattice_sigil", "forked"]
    links := ["archives.arc"]
    files := [("core.log", textFile)] }

/-- The `NODES` dictionary: node id to node, `none` for an unknown id
(a lookup of an unknown id raises `KeyError` in the source). -/
def NODES : String → Option Node
  | "hub.home" => some hubHome
  | "market.node" => some marketNode
  | "weaver.den" => some weaverDen
  | "corp.audit" => some corpAudit
  | "lattice.cache" => some latticeCache
  | "perimeter.gate" => some perimeterGate
  | "archives.arc" => some archivesArc
  | "core.relic" => some coreRelic
  | _ => none

/-- Python dict lookup in a node's `files` mapping (names are unique). -/
def lookupFile (files : List (String × GFile)) (name : String) : Option GFile :=
  (files.find? (fun p => p.1 = name)).map (fun p => p.2)

/-! ### The player state -/

/-- The mutable player state dictionary created by `fresh_state`. -/
@[ext]
structure PState where
  handle : String
  location : String
  inventory : Finset String
  scripts : Finset String
  flags : Finset String
  discovered : Finset String
  log : List String
  visited : Finset String
  last_cipher : Option String
  ended : Bool
deriving DecidableEq

/-- `fresh_state(handle)`; Python's `handle or "ghost"` replaces the empty
(falsy) string by `"ghost"`. -/
def fresh_state (handle : String) : PState :=
  { handle := if handle = "" then "ghost" else handle
    location := "hub.home"
    inventory := ∅
    scripts := ∅
    flags := ∅
    discovered := {"hub.home"}
    log := []
    visited := ∅
    last_cipher := none
    ended := false }

/-- `discover(state, nodes)`: add each id not already discovered and
collect the ids actually added, in input order. -/
def discover (s : PState) (nodes : List String) : PState × List String :=
  match nodes with
  | [] => (s, [])
  | n :: rest =>
    if n ∈ s.discovered then discover s rest
    else
      match discover { s with discovered := insert n s.discovered } rest with
      | (s2, added) => (s2, n :: added)

/-- `requirements_for(state, node_id)`: the gate evaluator.  `none` models
the `KeyError` for an unknown node id. -/
def requirements_for (s : PState) (node_id : String) :
    Option (Bool × List String × List String) :=
  (NODES node_id).map (fun node =>
    let missing_items := node.entry_items.filter (fun i => decide (i ∉ s.inventory))
    let missing_flags := node.entry_flags.filter (fun f => decide (f ∉ s.flags))
    (missing_items.isEmpty && missing_flags.isEmpty, missing_items, missing_flags))

/-- `enter_node(state, node_id)`: set the location, record a first visit.
The source looks up `NODES[node_id]` to print the banner; an unknown id
raises there, modelled as `none` (the process dies before any observable
state survives). -/
def enter_node (s : PState) (node_id : String) : Option PState :=
  match NODES node_id with
  | none => none
  | some _ =>
    let s1 := { s with location := node_id }
    some (if node_id ∈ s1.visited then s1
          else { s1 with visited := insert node_id s1.visited
                         log := s1.log ++ ["Entered " ++ node_id] })

/-! ### Script effects (`run_script`) and the commands -/

/-- `run_script(state, script_id)`: the script effects engine.  Returns the
updated state together with the messages passed to `show`. -/
def run_script (s : PState) (script_id : String) : PState × List String :=
  if script_id = "tracer" then
    let p := discover s ["market.node", "perimeter.gate"]
    ({ p.1 with flags := insert "trace_open" p.1.flags
                log := p.1.log ++ ["Tracer mapped the perimeter"] },
     ["Tracer online. Mesh resolved."] ++
       (if p.2.isEmpty then []
        else ["New signals: " ++ String.intercalate ", " p.2]))
  else if script_id = "spoof" then
    if "mask.dat" ∈ s.inventory then (s, ["Mask already minted."])
    else ({ s with inventory := insert "mask.dat" s.inventory
                   log := s.log ++ ["Minted mask.dat"] },
          ["Mask minted: mask.dat"])
  else if script_id = "sniffer" then
    if "sniffer_run" ∈ s.flags then (s, ["Sniffer already swept the quiet bands."])
    else
      let p := discover { s with flags := insert "sniffer_run" s.flags }
        ["weaver.den", "corp.audit", "lattice.cache"]
      ({ p.1 with log := p.1.log ++ ["Sniffer swept the quiet bands"] },
       ["Sniffer pulse complete."] ++
         (if p.2.isEmpty then []
          else ["New signals: " ++ String.intercalate ", " p.2]))
  else if script_id = "splice" then
    if "token.key" ∈ s.inventory then (s, ["Token already forged."])
    else
      let missing := ["badge.sig", "mask.dat", "weaver.mark"].filter
        (fun i => decide (i ∉ s.inventory))
      if ¬ missing.isEmpty then
        (s, ["Splice failed. Missing: " ++ String.intercalate ", " missing])
      else
        ({ s with inventory := insert "token.key" s.inventory
                  log := s.log ++ ["Spliced token.key"] },
         ["Token forged: token.key"])
  else if script_id = "ghost" then
    if "ghosted" ∈ s.flags then (s, ["Ghost protocol already active."])
    else if "weaver.mark" ∉ s.inventory then
      (s, ["Ghost protocol requires weaver.mark."])
    else
      let p := discover { s with flags := insert "ghosted" s.flags } ["corp.audit"]
      ({ p.1 with log := p.1.log ++ ["Ghosted the audit trail"] },
       ["Ghost protocol active. Your trail is cold."] ++
         (if p.2.isEmpty then []
          else ["New signal: " ++ String.intercalate ", " p.2]))
  else if script_id = "fork" then
    if "forked" ∈ s.flags then (s, ["Relay already forked."])
    else
      let p := discover { s with flags := insert "forked" s.flags } ["core.relic"]
      ({ p.1 with log := p.1.log ++ ["Forked the relay to the core"] },
       ["Relay forked. Core channel exposed."] ++
         (if p.2.isEmpty then [] else ["New signal: core.relic"]))
  else (s, ["Script returned no response."])

/-- `cmd_connect`: jump to a discovered node whose gate is satisfied.
`none` models the `KeyError` raised when a discovered id is absent from
`NODES` (impossible from reachable states). -/
def cmd_connect (s : PState) (args : List String) : Option PState :=
  match args with
  | [] => some s
  | node_id :: _ =>
    if node_id ∉ s.discovered then some s
    else
      match requirements_for s node_id with
      | none => none
      | some (ok, _, _) => if ok then enter_node s node_id else some s

/-- `cmd_home`: return to the hub. -/
def cmd_home (s : PState) : Option PState :=
  enter_node s "hub.home"

/-- `cmd_cat`: read a file; reading a cipher file caches its content in
`last_cipher` and logs the event.  `none` models the `KeyError` of
`current_files` when the current location is not in `NODES`. -/
def cmd_cat (s : PState) (args : List String) : Option PState :=
  match args with
  | [] => some s
  | name :: _ =>
    match NODES s.location with
    | none => none
    | some node =>
      match lookupFile node.files name with
      | none => some s
      | some f =>
        if f.cipher then
          some { s with last_cipher := some (f.content.getD "")
                        log := s.log ++ ["Read cipher " ++ name] }
        else some s

/-- `cmd_download`: take a downloadable script or item from the current
node. -/
def cmd_download (s : PState) (args : List String) : Option PState :=
  match args with
  | [] => some s
  | name :: _ =>
    match NODES s.location with
    | none => none
    | some node =>
      match lookupFile node.files name with
      | none => some s
      | some f =>
        if ¬ f.downloadable then some s
        else
          match f.ftype with
          | .script =>
            match f.script_id with
            | none => none
            | some sid =>
              if sid ∈ s.scripts then some s
              else some { s with scripts := insert sid s.scripts
                                 log := s.log ++ ["Downloaded script " ++ sid] }
          | .item =>
            match f.item_id with
            | none => none
            | some iid =>
              if iid ∈ s.inventory then some s
              else some { s with inventory := insert iid s.inventory
                                 log := s.log ++ ["Downloaded item " ++ iid] }
          | .text => some s

/-- `cmd_run`: run a script from the kit, or directly from the current
node's files. -/
def cmd_run (s : PState) (args : List String) : Option PState :=
  match args with
  | [] => some s
  | raw :: _ =>
    let script_id := if endsDotS raw then raw.dropRight 2 else raw
    if script_id ∈ s.scripts then some (run_script s script_id).1
    else
      match NODES s.location with
      | none => none
      | some node =>
        if node.files.any
            (fun p => p.2.ftype = FType.script ∧ p.2.script_id = some script_id)
        then some (run_script s script_id).1
        else some s

/-- The decoding phase of `cmd_decode`: pick the payload (explicit argument
or the cached `last_cipher`, the empty string being falsy), dispatch on the
cipher name, and return the decoded text when the decode succeeds. -/
def decode_result (s : PState) (args : List String) : Option String :=
  match args with
  | [] => none
  | a0 :: rest =>
    let cipher := asciiLower a0
    let payload0 : Option String :=
      match rest with
      | [] => none
      | _ =>
        let p := pyStrip (String.intercalate " " rest)
        if p = "" then none else some p
    let payload : Option String :=
      match payload0 with
      | some p => some p
      | none =>
        match s.last_cipher with
        | some p => if p = "" then none else some p
        | none => none
    match payload with
    | none => none
    | some p =>
      if cipher = "rot13" ∨ cipher = "rot" ∨ cipher = "r13" then some (rot13 p)
      else if cipher = "b64" ∨ cipher = "base64" then
        (b64Decode p).map (fun bytes => (⟨utf8Replace bytes⟩ : String))
      else none

/-- The flag-unlock phase of `cmd_decode`: scan the decoded text
case-insensitively for the ember and lattice key phrases. -/
def apply_decode_flags (s : PState) (result : String) : PState :=
  let upper := asciiUpper result
  let s1 :=
    if hasSub "EMBER".data upper.data ∧ "ember_phrase" ∉ s.flags then
      { s with flags := insert "ember_phrase" s.flags
               log := s.log ++ ["Decoded ember phrase"] }
    else s
  if hasSub "LATTICE".data upper.data ∧ "lattice_sigil" ∉ s1.flags then
    { s1 with flags := insert "lattice_sigil" s1.flags
              log := s1.log ++ ["Decoded lattice sigil"] }
  else s1

/-- `cmd_decode`: decode and, on success, run the flag-unlock scan.  Every
failure path leaves the state unchanged. -/
def cmd_decode (s : PState) (args : List String) : PState :=
  match decode_result s args with
  | some r => apply_decode_flags s r
  | none => s

/-- `cmd_exfiltrate`: the exfiltrate ending, valid only at `core.relic`. -/
def cmd_exfiltrate (s : PState) : PState :=
  if s.location ≠ "core.relic" then s
  else { s with ended := true, log := s.log ++ ["Ending: exfiltrate"] }

/-- `cmd_restore`: the restore ending, valid only at `core.relic`. -/
def cmd_restore (s : PState) : PState :=
  if s.location ≠ "core.relic" then s
  else { s with ended := true, log := s.log ++ ["Ending: restore"] }

/-! ### Persistence -/

/-- The persisted record.  Every field is optional: `load_state` reads each
with `data.get(...)` and a default. -/
structure SaveRecord where
  handle : Option String
  location : Option String
  inventory : Option (List String)
  scripts : Option (List String)
  flags : Option (List String)
  discovered : Option (List String)
  log : Option (List String)
  visited : Option (List String)
  last_cipher : Option String
  ended : Option Bool
deriving DecidableEq

/-- `serialize_state(state)`: sets are written as lexicographically sorted
sequences, the log stays in insertion order. -/
def serialize_state (s : PState) : SaveRecord :=
  { handle := some s.handle
    location := some s.location
    inventory := some (s.inventory.sort (· ≤ ·))
    scripts := some (s.scripts.sort (· ≤ ·))
    flags := some (s.flags.sort (· ≤ ·))
    discovered := some (s.discovered.sort (· ≤ ·))
    log := some s.log
    visited := some (s.visited.sort (· ≤ ·))
    last_cipher := s.last_cipher
    ended := some s.ended }

/-- `load_state()` applied to an already-parsed record: rebuild the state
with fresh-state defaults for absent fields, then make sure the location is
discovered. -/
def load_state (r : SaveRecord) : PState :=
  let st := fresh_state (r.handle.getD "ghost")
  let loc := r.location.getD "hub.home"
  let disc := (r.discovered.getD []).toFinset
  { st with
    location := loc
    inventory := (r.inventory.getD []).toFinset
    scripts := (r.scripts.getD []).toFinset
    flags := (r.flags.getD []).toFinset
    discovered := if loc ∈ disc then disc else insert loc disc
    log := r.log.getD []
    visited := (r.visited.getD []).toFinset
    last_cipher := r.last_cipher
    ended := r.ended.getD false }

/-- What the save file may hold when `load` runs: no file at all, a file on
which `load_state` raises (unparseable or ill-typed), or a parsed record. -/
inductive SaveFile where
  | missing
  | malformed
  | record (r : SaveRecord)
deriving DecidableEq

/-- `cmd_load`: missing file and `load_state` exceptions are reported and
keep the prior state; a parsed record is installed and entered.  The final
`enter_node` runs outside the `try`, so an unknown location raises an
uncaught `KeyError` — modelled by `none`. -/
def cmd_load (s : PState) (f : SaveFile) : Option (PState × List String) :=
  match f with
  | .missing => some (s, ["No save file found."])
  | .malformed => some (s, ["Failed to load save file."])
  | .record r =>
    let ns := load_state r
    (enter_node ns ns.location).map (fun ns2 => (ns2, ["Save loaded."]))

/-! ### Reachable states

A state is reachable when it arises from a fresh state by the
state-mutating commands.  The purely informational commands (`help`,
`scan`, `ls`, `cat` of a plain file, `inventory`, `profile`, `log`,
`save`) never change the state, so they do not add reachable states.  The
`load` step loads a record that the program itself persisted, i.e. the
serialization of some reachable state. -/

inductive Reachable : PState → Prop where
  | fresh (h : String) : Reachable (fresh_state h)
  | connect {s s' : PState} {args : List String} :
      Reachable s → cmd_connect s args = some s' → Reachable s'
  | home {s s' : PState} :
      Reachable s → cmd_home s = some s' → Reachable s'
  | cat {s s' : PState} {args : List String} :
      Reachable s → cmd_cat s args = some s' → Reachable s'
  | download {s s' : PState} {args : List String} :
      Reachable s → cmd_download s args = some s' → Reachable s'
  | run {s s' : PState} {args : List String} :
      Reachable s → cmd_run s args = some s' → Reachable s'
  | decode {s : PState} {args : List String} :
      Reachable s → Reachable (cmd_decode s args)
  | exfiltrate {s : PState} :
      Reachable s → Reachable (cmd_exfiltrate s)
  | restore {s : PState} :
      Reachable s → Reachable (cmd_restore s)
  | load {s t s' : PState} {msgs : List String} :
      Reachable s → Reachable t →
      cmd_load s (SaveFile.record (serialize_state t)) = some (s', msgs) →
      Reachable s'

/-! ### Concrete states and records used by witnesses and counterexamples -/

/-- A state at the core relic with an ending already triggered. -/
def endedState : PState :=
  { handle := "ghost", location := "core.relic"
    inventory := {"relay.shard", "relic.key"}, scripts := ∅
    flags := {"lattice_sigil", "forked"}
    discovered := {"hub.home", "core.relic"}
    log := ["Ending: exfiltrate"], visited := {"core.relic"}
    last_cipher := none, ended := true }

/-- A parsed save record whose location is not a node of the world. -/
def badLocRecord : SaveRecord :=
  { handle := some "x", location := some "nowhere.node"
    inventory := none, scripts := none, flags := none, discovered := none
    log := none, visited := none, last_cipher := none, ended := none }

/-- A parsed save record placing the player at `lattice.cache` with none of
that node's entry requirements. -/
def latticeRecord : SaveRecord :=
  { handle := some "x", location := some "lattice.cache"
    inventory := some [], scripts := some [], flags := some []
    discovered := some [], log := some [], visited := some []
    last_cipher := none, ended := some false }

/-- A state owning exactly `badge.sig` and `mask.dat` (scenario 2 of the
specification). -/
def spliceState : PState :=
  { fresh_state "ghost" with inventory := {"badge.sig", "mask.dat"} }

/-! ### Helper lemmas -/

theorem toNat_of_ofNat (n : Nat) (h : n < 55296) : (Char.ofNat n).toNat = n := by
  unfold Char.ofNat
  split
  · rfl
  · rename_i hv
    exact absurd (Or.inl (by omega)) hv

theorem ofNat_of_toNat (c : Char) : Char.ofNat c.toNat = c := by
  unfold Char.ofNat
  split
  · exact Char.ext rfl
  · rename_i hv
    exact absurd c.valid hv

theorem rot13Char_upper {c : Char} (h1 : 65 ≤ c.toNat) (h2 : c.toNat ≤ 90) :
    (rot13Char c).toNat = 65 + (c.toNat - 65 + 13) % 26 := by
  unfold rot13Char
  rw [if_pos ⟨h1, h2⟩]
  exact toNat_of_ofNat _ (by omega)

theorem rot13Char_lower {c : Char} (h1 : 97 ≤ c.toNat) (h2 : c.toNat ≤ 122) :
    (rot13Char c).toNat = 97 + (c.toNat - 97 + 13) % 26 := by
  unfold rot13Char
  rw [if_neg (by omega), if_pos ⟨h1, h2⟩]
  exact toNat_of_ofNat _ (by omega)

theorem rot13Char_other {c : Char}
    (h1 : ¬(65 ≤ c.toNat ∧ c.toNat ≤ 90)) (h2 : ¬(97 ≤ c.toNat ∧ c.toNat ≤ 122)) :
    rot13Char c = c := by
  unfold rot13Char
  rw [if_neg h1, if_neg h2]

theorem rot13Char_invol (c : Char) : rot13Char (rot13Char c) = c := by
  by_cases h1 : 65 ≤ c.toNat ∧ c.toNat ≤ 90
  · have e1 := rot13Char_upper h1.1 h1.2
    have e2 := rot13Char_upper (c := rot13Char c) (by omega) (by omega)
    have e3 : (rot13Char (rot13Char c)).toNat = c.toNat := by omega
    calc rot13Char (rot13Char c)
        = Char.ofNat (rot13Char (rot13Char c)).toNat := (ofNat_of_toNat _).symm
      _ = Char.ofNat c.toNat := by rw [e3]
      _ = c := ofNat_of_toNat c
  · by_cases h2 : 97 ≤ c.toNat ∧ c.toNat ≤ 122
    · have e1 := rot13Char_lower h2.1 h2.2
      have e2 := rot13Char_lower (c := rot13Char c) (by omega) (by omega)
      have e3 : (rot13Char (rot13Char c)).toNat = c.toNat := by omega
      calc rot13Char (rot13Char c)
          = Char.ofNat (rot13Char (rot13Char c)).toNat := (ofNat_of_toNat _).symm
        _ = Char.ofNat c.toNat := by rw [e3]
        _ = c := ofNat_of_toNat c
    · rw [rot13Char_other h1 h2, rot13Char_other h1 h2]

theorem rot13_invol (s : String) : rot13 (rot13 s) = s := by
  cases s with
  | mk data =>
    show String.mk ((data.map rot13Char).map rot13Char) = String.mk data
    congr 1
    induction data with
    | nil => rfl
    | cons c t ih => simp [rot13Char_invol, ih]

theorem discover_fst (s : PState) (l : List String) :
    (discover s l).1 = { s with discovered := s.discovered ∪ l.toFinset } := by
  induction l generalizing s with
  | nil => simp [discover]
  | cons n rest ih =>
    by_cases h : n ∈ s.discovered
    · rw [show discover s (n :: rest) = discover s rest from by simp [discover, h], ih]
      have : s.discovered ∪ (n :: rest).toFinset = s.discovered ∪ rest.toFinset := by
        rw [List.toFinset_cons, Finset.union_insert,
          Finset.insert_eq_self.mpr (Finset.mem_union_left _ h)]
      rw [this]
    · have step : discover s (n :: rest) =
          (((discover { s with discovered := insert n s.discovered } rest).1),
            n :: (discover { s with discovered := insert n s.discovered } rest).2) := by
        simp [discover, h]
      rw [step]
      simp only [ih]
      have : insert n s.discovered ∪ rest.toFinset = s.discovered ∪ (n :: rest).toFinset := by
        rw [List.toFinset_cons, Finset.union_insert, Finset.insert_union]
      simp [this]

theorem discover_snd_sublist (s : PState) (l : List String) :
    (discover s l).2.Sublist l := by
  induction l generalizing s with
  | nil => simp [discover]
  | cons n rest ih =>
    by_cases h : n ∈ s.discovered
    · rw [show discover s (n :: rest) = discover s rest from by simp [discover, h]]
      exact (ih s).cons n
    · have step : (discover s (n :: rest)).2 =
          n :: (discover { s with discovered := insert n s.discovered } rest).2 := by
        simp [discover, h]
      rw [step]
      exact (ih _).cons₂ n

theorem discover_snd_mem (s : PState) (l : List String) (x : String) :
    x ∈ (discover s l).2 ↔ x ∈ l ∧ x ∉ s.discovered := by
  induction l generalizing s with
  | nil => simp [discover]
  | cons n rest ih =>
    by_cases h : n ∈ s.discovered
    · rw [show discover s (n :: rest) = discover s rest from by simp [discover, h], ih]
      constructor
      · rintro ⟨hx, hnd⟩
        exact ⟨List.mem_cons_of_mem _ hx, hnd⟩
      · rintro ⟨hx, hnd⟩
        rcases List.mem_cons.mp hx with rfl | hx
        · exact absurd h hnd
        · exact ⟨hx, hnd⟩
    · have step : (discover s (n :: rest)).2 =
          n :: (discover { s with discovered := insert n s.discovered } rest).2 := by
        simp [discover, h]
      rw [step]
      simp only [List.mem_cons, ih]
      constructor
      · rintro (rfl | ⟨hx, hnd⟩)
        · exact ⟨Or.inl rfl, h⟩
        · simp only [Finset.mem_insert] at hnd
          push_neg at hnd
          exact ⟨Or.inr hx, hnd.2⟩
      · rintro ⟨rfl | hx, hnd⟩
        · exact Or.inl rfl
        · by_cases hxn : x = n
          · exact Or.inl hxn
          · exact Or.inr ⟨hx, by simp [Finset.mem_insert, hxn, hnd]⟩

theorem discover_stable (s : PState) (l : List String)
    (h : ∀ x ∈ l, x ∈ s.discovered) : discover s l = (s, []) := by
  induction l with
  | nil => simp [discover]
  | cons n rest ih =>
    have hn : n ∈ s.discovered := h n (List.mem_cons_self n rest)
    rw [show discover s (n :: rest) = discover s rest from by simp [discover, hn]]
    exact ih (fun x hx => h x (List.mem_cons_of_mem _ hx))

/-! ### Claim theorems -/

/-- C7: `discover` adds to `state.discovered` exactly those ids not already
present and returns them as the subsequence of the input actually added,
preserving input order; it never removes entries, and a second call with
the same ids leaves the state unchanged and returns the empty sequence. -/
theorem c7_discover_contract (s : PState) (nodes : List String) :
    (discover s nodes).1 = { s with discovered := s.discovered ∪ nodes.toFinset } ∧
    (discover s nodes).2.Sublist nodes ∧
    (∀ x, x ∈ (discover s nodes).2 ↔ x ∈ nodes ∧ x ∉ s.discovered) ∧
    s.discovered ⊆ (discover s nodes).1.discovered ∧
    discover (discover s nodes).1 nodes = ((discover s nodes).1, []) := by
  refine ⟨discover_fst s nodes, discover_snd_sublist s nodes,
    discover_snd_mem s nodes, ?_, ?_⟩
  · rw [discover_fst]
    exact Finset.subset_union_left
  · apply discover_stable
    intro x hx
    rw [discover_fst]
    exact Finset.mem_union_right _ (List.mem_toFinset.mpr hx)

/-- C10: rot13 is an involution on every string; a single application
shifts each ASCII letter by 13 positions preserving case and passes every
non-letter character through unchanged. -/
theorem c10_rot13_involution :
    (∀ x : String, rot13 (rot13 x) = x) ∧
    (∀ c : Char, 65 ≤ c.toNat → c.toNat ≤ 90 →
      (rot13Char c).toNat = 65 + (c.toNat - 65 + 13) % 26 ∧
      65 ≤ (rot13Char c).toNat ∧ (rot13Char c).toNat ≤ 90) ∧
    (∀ c : Char, 97 ≤ c.toNat → c.toNat ≤ 122 →
      (rot13Char c).toNat = 97 + (c.toNat - 97 + 13) % 26 ∧
      97 ≤ (rot13Char c).toNat ∧ (rot13Char c).toNat ≤ 122) ∧
    (∀ c : Char, ¬(65 ≤ c.toNat ∧ c.toNat ≤ 90) → ¬(97 ≤ c.toNat ∧ c.toNat ≤ 122) →
      rot13Char c = c) ∧
    (∀ x : String, rot13 x = ⟨x.data.map rot13Char⟩) := by
  refine ⟨rot13_invol, ?_, ?_, fun c h1 h2 => rot13Char_other h1 h2, fun _ => rfl⟩
  · intro c h1 h2
    have e := rot13Char_upper h1 h2
    exact ⟨e, by omega, by omega⟩
  · intro c h1 h2
    have e := rot13Char_lower h1 h2
    exact ⟨e, by omega, by omega⟩

/-- Witness for C10 at concrete inputs. -/
theorem c10_rot13_involution_witness :
    rot13 (rot13 "Gur Qevsg 13!") = "Gur Qevsg 13!" ∧
    65 ≤ ('A' : Char).toNat ∧ ('A' : Char).toNat ≤ 90 ∧
    (rot13Char 'A').toNat = 65 + (('A' : Char).toNat - 65 + 13) % 26 :=
  ⟨c10_rot13_involution.1 _, by decide, by decide,
    (c10_rot13_involution.2.1 'A' (by decide) (by decide)).1⟩

/-- C1: for every node id present in the world definition the gate
evaluator returns ok iff every required item is owned and every required
flag is set, lists the missing items and flags in declared order, and its
result depends only on the inventory and flags components of the state. -/
theorem c1_gate_evaluator (s : PState) (n : String) (node : Node)
    (hn : NODES n = some node) :
    requirements_for s n =
      some ((node.entry_items.filter (fun i => decide (i ∉ s.inventory))).isEmpty &&
              (node.entry_flags.filter (fun f => decide (f ∉ s.flags))).isEmpty,
            node.entry_items.filter (fun i => decide (i ∉ s.inventory)),
            node.entry_flags.filter (fun f => decide (f ∉ s.flags))) ∧
    ((requirements_for s n).map (fun t => t.1) = some true ↔
      (∀ i ∈ node.entry_items, i ∈ s.inventory) ∧
      (∀ f ∈ node.entry_flags, f ∈ s.flags)) ∧
    (∀ t : PState, t.inventory = s.inventory → t.flags = s.flags →
      requirements_for t n = requirements_for s n) := by
  have base : requirements_for s n =
      some ((node.entry_items.filter (fun i => decide (i ∉ s.inventory))).isEmpty &&
              (node.entry_flags.filter (fun f => decide (f ∉ s.flags))).isEmpty,
            node.entry_items.filter (fun i => decide (i ∉ s.inventory)),
            node.entry_flags.filter (fun f => decide (f ∉ s.flags))) := by
    unfold requirements_for
    rw [hn]
    rfl
  refine ⟨base, ?_, ?_⟩
  · rw [base]
    simp only [Option.map_some', Option.some.injEq, Bool.and_eq_true,
      List.isEmpty_iff, List.filter_eq_nil_iff, decide_eq_true_eq, not_not]
  · intro t hinv hflags
    unfold requirements_for
    rw [hinv, hflags]

/-- Witness for C1 at a concrete node and state. -/
theorem c1_gate_evaluator_witness :
    NODES "hub.home" = some hubHome ∧
    requirements_for (fresh_state "ghost") "hub.home" = some (true, [], []) := by
  have h := c1_gate_evaluator (fresh_state "ghost") "hub.home" hubHome rfl
  exact ⟨rfl, by rw [h.1]; decide⟩

/-- C5: running `splice` when `token.key` is not owned and some of the
three ingredients are missing reports exactly the missing items in the
fixed order badge.sig, mask.dat, weaver.mark and leaves the state
unchanged. -/
theorem c5_splice_blocked (s : PState)
    (htok : "token.key" ∉ s.inventory)
    (hmiss : "badge.sig" ∉ s.inventory ∨ "mask.dat" ∉ s.inventory ∨
      "weaver.mark" ∉ s.inventory) :
    run_script s "splice" =
      (s, ["Splice failed. Missing: " ++ String.intercalate ", "
            (["badge.sig", "mask.dat", "weaver.mark"].filter
              (fun i => decide (i ∉ s.inventory)))]) := by
  have hne : ¬ (["badge.sig", "mask.dat", "weaver.mark"].filter
      (fun i => decide (i ∉ s.inventory))).isEmpty = true := by
    rw [List.isEmpty_iff]
    rcases hmiss with h | h | h
    · have hmem : "badge.sig" ∈ ["badge.sig", "mask.dat", "weaver.mark"].filter
          (fun i => decide (i ∉ s.inventory)) :=
        List.mem_filter.mpr ⟨by decide, by simpa using h⟩
      exact List.ne_nil_of_mem hmem
    · have hmem : "mask.dat" ∈ ["badge.sig", "mask.dat", "weaver.mark"].filter
          (fun i => decide (i ∉ s.inventory)) :=
        List.mem_filter.mpr ⟨by decide, by simpa using h⟩
      exact List.ne_nil_of_mem hmem
    · have hmem : "weaver.mark" ∈ ["badge.sig", "mask.dat", "weaver.mark"].filter
          (fun i => decide (i ∉ s.inventory)) :=
        List.mem_filter.mpr ⟨by decide, by simpa using h⟩
      exact List.ne_nil_of_mem hmem
  simp only [run_script, String.reduceEq, if_false, reduceIte]
  rw [if_neg htok, if_pos hne]

/-- Witness for C5: scenario 2 of the specification, owning only
`badge.sig` and `mask.dat`. -/
theorem c5_splice_blocked_witness :
    "token.key" ∉ spliceState.inventory ∧
    "weaver.mark" ∉ spliceState.inventory ∧
    run_script spliceState "splice" =
      (spliceState, ["Splice failed. Missing: weaver.mark"]) := by
  refine ⟨by decide, by decide, ?_⟩
  rw [c5_splice_blocked spliceState (by decide) (Or.inr (Or.inr (by decide)))]
  decide

/-! ### Per-command preservation lemmas and the reachability invariant -/

theorem sort_toFinset (t : Finset String) : (t.sort (· ≤ ·)).toFinset = t := by
  ext a
  simp [Finset.mem_sort]

theorem enter_node_fields {s s' : PState} {n : String}
    (h : enter_node s n = some s') :
    s'.handle = s.handle ∧ s'.discovered = s.discovered ∧ s'.location = n ∧
    s'.inventory = s.inventory ∧ s'.flags = s.flags ∧ s'.scripts = s.scripts ∧
    s'.ended = s.ended ∧ s'.last_cipher = s.last_cipher := by
  unfold enter_node at h
  cases hn : NODES n with
  | none => rw [hn] at h; exact absurd h (by simp)
  | some node =>
    rw [hn] at h
    simp only [Option.some.injEq] at h
    subst h
    split <;> simp

theorem cmd_connect_cases {s s' : PState} {args : List String}
    (h : cmd_connect s args = some s') :
    s' = s ∨ ∃ n, n ∈ s.discovered ∧
      (requirements_for s n).map (fun t => t.1) = some true ∧
      enter_node s n = some s' := by
  cases args with
  | nil =>
    simp only [cmd_connect] at h
    exact Or.inl (Option.some.inj h).symm
  | cons node_id rest =>
    simp only [cmd_connect] at h
    split at h
    · exact Or.inl (Option.some.inj h).symm
    · rename_i hmem
      split at h
      · exact absurd h (by simp)
      · rename_i ok mi mf hreq
        split at h
        · rename_i hok
          refine Or.inr ⟨node_id, not_not.mp hmem, ?_, h⟩
          rw [hreq]
          simp [hok]
        · exact Or.inl (Option.some.inj h).symm

theorem cmd_cat_fields {s s' : PState} {args : List String}
    (h : cmd_cat s args = some s') :
    s'.handle = s.handle ∧ s'.discovered = s.discovered ∧
    s'.location = s.location ∧ s'.inventory = s.inventory ∧
    s'.flags = s.flags ∧ s'.scripts = s.scripts ∧ s'.ended = s.ended := by
  cases args with
  | nil =>
    simp only [cmd_cat] at h
    cases Option.some.inj h
    simp
  | cons name rest =>
    simp only [cmd_cat] at h
    split at h
    · exact absurd h (by simp)
    · split at h
      · cases Option.some.inj h
        simp
      · split at h <;> (cases Option.some.inj h; simp)

theorem cmd_download_fields {s s' : PState} {args : List String}
    (h : cmd_download s args = some s') :
    s'.handle = s.handle ∧ s'.discovered = s.discovered ∧
    s'.location = s.location ∧ s'.flags = s.flags ∧ s'.ended = s.ended ∧
    s'.last_cipher = s.last_cipher := by
  cases args with
  | nil =>
    simp only [cmd_download] at h
    cases Option.some.inj h
    simp
  | cons name rest =>
    simp only [cmd_download] at h
    split at h
    · exact absurd h (by simp)
    · split at h
      · cases Option.some.inj h
        simp
      · split at h
        · cases Option.some.inj h
          simp
        · split at h
          · split at h
            · exact absurd h (by simp)
            · split at h <;> (cases Option.some.inj h; simp)
          · split at h
            · exact absurd h (by simp)
            · split at h <;> (cases Option.some.inj h; simp)
          · cases Option.some.inj h
            simp

theorem run_script_fields (s : PState) (i : String) :
    (run_script s i).1.handle = s.handle ∧
    (run_script s i).1.location = s.location ∧
    s.discovered ⊆ (run_script s i).1.discovered ∧
    (run_script s i).1.ended = s.ended ∧
    (run_script s i).1.last_cipher = s.last_cipher := by
  unfold run_script
  repeat' split
  all_goals try (refine ⟨?_, ?_, ?_, ?_, ?_⟩ <;> try simp [discover_fst])
  all_goals try (refine Finset.subset_iff.mpr fun x hx => ?_; simp [discover_fst, hx])
  all_goals split <;> simp

theorem apply_decode_flags_fields (s : PState) (r : String) :
    (apply_decode_flags s r).handle = s.handle ∧
    (apply_decode_flags s r).discovered = s.discovered ∧
    (apply_decode_flags s r).location = s.location ∧
    (apply_decode_flags s r).inventory = s.inventory ∧
    (apply_decode_flags s r).scripts = s.scripts ∧
    (apply_decode_flags s r).visited = s.visited ∧
    (apply_decode_flags s r).last_cipher = s.last_cipher ∧
    (apply_decode_flags s r).ended = s.ended := by
  simp only [apply_decode_flags]
  split_ifs <;> simp

theorem cmd_decode_fields (s : PState) (args : List String) :
    (cmd_decode s args).handle = s.handle ∧
    (cmd_decode s args).discovered = s.discovered ∧
    (cmd_decode s args).location = s.location := by
  unfold cmd_decode
  cases decode_result s args with
  | none => simp
  | some r =>
    have := apply_decode_flags_fields s r
    exact ⟨this.1, this.2.1, this.2.2.1⟩

theorem cmd_exfiltrate_fields (s : PState) :
    (cmd_exfiltrate s).handle = s.handle ∧
    (cmd_exfiltrate s).discovered = s.discovered ∧
    (cmd_exfiltrate s).location = s.location := by
  unfold cmd_exfiltrate
  split_ifs <;> simp

theorem cmd_restore_fields (s : PState) :
    (cmd_restore s).handle = s.handle ∧
    (cmd_restore s).discovered = s.discovered ∧
    (cmd_restore s).location = s.location := by
  unfold cmd_restore
  split_ifs <;> simp

theorem cmd_run_cases {s s' : PState} {args : List String}
    (h : cmd_run s args = some s') :
    s' = s ∨ ∃ i, s' = (run_script s i).1 := by
  cases args with
  | nil =>
    simp only [cmd_run] at h
    exact Or.inl (Option.some.inj h).symm
  | cons raw rest =>
    simp only [cmd_run] at h
    split at h
    all_goals
      split at h
      · exact Or.inr ⟨_, (Option.some.inj h).symm⟩
      · split at h
        · exact absurd h (by simp)
        · split at h
          · exact Or.inr ⟨_, (Option.some.inj h).symm⟩
          · exact Or.inl (Option.some.inj h).symm

theorem fresh_state_handle (h : String) : (fresh_state h).handle ≠ "" := by
  unfold fresh_state
  split_ifs with hh
  · simp
  · simpa using hh

/-- The round-trip equation, from the two reachability invariants it
needs. -/
theorem roundtrip_aux (s : PState) (hh : s.handle ≠ "")
    (hl : s.location ∈ s.discovered) :
    load_state (serialize_state s) = s := by
  unfold load_state serialize_state fresh_state
  simp only [Option.getD_some]
  ext <;> simp [sort_toFinset, hh, hl]

theorem cmd_load_record {s s' : PState} {r : SaveRecord} {msgs : List String}
    (h : cmd_load s (SaveFile.record r) = some (s', msgs)) :
    enter_node (load_state r) (load_state r).location = some s' := by
  simp only [cmd_load] at h
  cases he : enter_node (load_state r) (load_state r).location with
  | none => rw [he] at h; exact absurd h (by simp)
  | some x =>
    rw [he] at h
    simp only [Option.map_some', Option.some.injEq, Prod.mk.injEq] at h
    rw [h.1]

/-- The key reachability invariant: a reachable state has a nonempty
handle, has discovered the hub, and has discovered its own location. -/
theorem reachable_inv {s : PState} (h : Reachable s) :
    s.handle ≠ "" ∧ "hub.home" ∈ s.discovered ∧ s.location ∈ s.discovered := by
  induction h with
  | fresh h =>
    exact ⟨fresh_state_handle h, by simp [fresh_state], by simp [fresh_state]⟩
  | @connect u u' args hr hc ih =>
    rcases cmd_connect_cases hc with rfl | ⟨n, hmem, _, he⟩
    · exact ih
    · obtain ⟨h1, h2, h3, _⟩ := enter_node_fields he
      exact ⟨h1 ▸ ih.1, h2 ▸ ih.2.1, by rw [h3, h2]; exact hmem⟩
  | @home u u' hr hc ih =>
    obtain ⟨h1, h2, h3, _⟩ := enter_node_fields hc
    exact ⟨h1 ▸ ih.1, h2 ▸ ih.2.1, by rw [h3, h2]; exact ih.2.1⟩
  | @cat u u' args hr hc ih =>
    obtain ⟨h1, h2, h3, _⟩ := cmd_cat_fields hc
    exact ⟨h1 ▸ ih.1, h2 ▸ ih.2.1, by rw [h3, h2]; exact ih.2.2⟩
  | @download u u' args hr hc ih =>
    obtain ⟨h1, h2, h3, _⟩ := cmd_download_fields hc
    exact ⟨h1 ▸ ih.1, h2 ▸ ih.2.1, by rw [h3, h2]; exact ih.2.2⟩
  | @run u u' args hr hc ih =>
    rcases cmd_run_cases hc with rfl | ⟨i, rfl⟩
    · exact ih
    · obtain ⟨h1, h2, h3, _⟩ := run_script_fields u i
      exact ⟨h1 ▸ ih.1, h3 ih.2.1, by rw [h2]; exact h3 ih.2.2⟩
  | @decode u args hr ih =>
    obtain ⟨h1, h2, h3⟩ := cmd_decode_fields u args
    exact ⟨h1 ▸ ih.1, h2 ▸ ih.2.1, by rw [h3, h2]; exact ih.2.2⟩
  | @exfiltrate u hr ih =>
    obtain ⟨h1, h2, h3⟩ := cmd_exfiltrate_fields u
    exact ⟨h1 ▸ ih.1, h2 ▸ ih.2.1, by rw [h3, h2]; exact ih.2.2⟩
  | @restore u hr ih =>
    obtain ⟨h1, h2, h3⟩ := cmd_restore_fields u
    exact ⟨h1 ▸ ih.1, h2 ▸ ih.2.1, by rw [h3, h2]; exact ih.2.2⟩
  | @load u t u' msgs hrs hrt hc ihs iht =>
    have hrt2 := roundtrip_aux t iht.1 iht.2.2
    have he := cmd_load_record hc
    rw [hrt2] at he
    obtain ⟨h1, h2, h3, _⟩ := enter_node_fields he
    exact ⟨h1 ▸ iht.1, h2 ▸ iht.2.1, by rw [h3, h2]; exact iht.2.2⟩

/-- C3: deserializing the serialization of any reachable state yields the
same state: same handle, location, ended flag and last_cipher, the same
inventory, scripts, flags, discovered and visited sets, and the identical
log sequence. -/
theorem c3_save_roundtrip (s : PState) (h : Reachable s) :
    load_state (serialize_state s) = s := by
  obtain ⟨hh, _, hl⟩ := reachable_inv h
  exact roundtrip_aux s hh hl

/-- Witness for C3 at the fresh state. -/
theorem c3_save_roundtrip_witness :
    load_state (serialize_state (fresh_state "ghost")) = fresh_state "ghost" :=
  c3_save_roundtrip _ (Reachable.fresh "ghost")

/-- C8: every reachable state has discovered its own location; a fresh
state starts at the hub with exactly the hub discovered; loading any
record re-establishes the containment. -/
theorem c8_discovered_contains_location :
    (∀ s : PState, Reachable s → s.location ∈ s.discovered) ∧
    (∀ h : String, (fresh_state h).location = "hub.home" ∧
      (fresh_state h).discovered = {"hub.home"}) ∧
    (∀ r : SaveRecord, (load_state r).location ∈ (load_state r).discovered) := by
  refine ⟨fun s hs => (reachable_inv hs).2.2, fun h => ⟨rfl, rfl⟩, fun r => ?_⟩
  unfold load_state
  by_cases hm : (r.location.getD "hub.home") ∈ (r.discovered.getD []).toFinset
  · simp [hm]
  · simp [hm]

/-- Witness for C8 at the fresh state. -/
theorem c8_discovered_contains_location_witness :
    Reachable (fresh_state "ghost") ∧
    (fresh_state "ghost").location ∈ (fresh_state "ghost").discovered :=
  ⟨Reachable.fresh "ghost",
    c8_discovered_contains_location.1 _ (Reachable.fresh "ghost")⟩

/-- C2 counterexample: `load` installs a record whose location's entry
requirements are not met by the loaded inventory and flags — the loaded
state sits at `lattice.cache` while the gate evaluator reports `false`
with missing items and flags. -/
theorem c2_counterexample :
    (cmd_load (fresh_state "ghost") (SaveFile.record latticeRecord)).map
        (fun p => (p.1.location,
          (requirements_for p.1 p.1.location).map (fun t => t.1))) =
      some ("lattice.cache", some false) := by
  rfl

/-- C2 amended: `connect` changes the location only to a node whose gate
evaluates to ok against the pre-transition state (whose inventory and
flags `enter_node` preserves), and `home` targets `hub.home`, whose entry
requirements are empty, so its gate holds in every state; `load` installs
the loaded record without re-checking the gate. -/
theorem c2_gate_on_transitions (s s' : PState) (args : List String) :
    (cmd_connect s args = some s' → s'.location = s.location ∨
      (requirements_for s s'.location).map (fun t => t.1) = some true) ∧
    (requirements_for s "hub.home").map (fun t => t.1) = some true ∧
    (cmd_home s = some s' → s'.location = "hub.home") := by
  refine ⟨?_, ?_, ?_⟩
  · intro h
    rcases cmd_connect_cases h with rfl | ⟨n, _, hok, he⟩
    · exact Or.inl rfl
    · rw [(enter_node_fields he).2.2.1]
      exact Or.inr hok
  · rfl
  · intro h
    exact (enter_node_fields h).2.2.1

/-- Witness for C2 on the `home` transition from the fresh state. -/
theorem c2_gate_on_transitions_witness :
    cmd_home (fresh_state "ghost") =
      some { fresh_state "ghost" with
             visited := {"hub.home"}, log := ["Entered hub.home"] } ∧
    ({ fresh_state "ghost" with
       visited := {"hub.home"}, log := ["Entered hub.home"] } : PState).location =
      "hub.home" := by
  have e : cmd_home (fresh_state "ghost") =
      some { fresh_state "ghost" with
             visited := {"hub.home"}, log := ["Entered hub.home"] } := by
    decide
  exact ⟨e, (c2_gate_on_transitions (fresh_state "ghost") _ []).2.2 e⟩

/-- C4 counterexample: with an ending already triggered at `core.relic`,
`restore` is not a state no-op — it appends another ending event to the
log. -/
theorem c4_counterexample :
    endedState.ended = true ∧ endedState.location = "core.relic" ∧
    cmd_restore endedState ≠ endedState := by
  refine ⟨rfl, rfl, ?_⟩
  decide

/-- C4 amended: `ended` does not block commands; issuing `restore` at
`core.relic` after an ending leaves every component unchanged except the
log, to which it appends another "Ending: restore" event (and it re-sets
the already-true `ended` flag). -/
theorem c4_restore_after_end (s : PState) (h1 : s.ended = true)
    (h2 : s.location = "core.relic") :
    cmd_restore s = { s with log := s.log ++ ["Ending: restore"] } := by
  unfold cmd_restore
  rw [if_neg (by simp [h2])]
  ext <;> simp [h1]

/-- Witness for C4 at the concrete ended state. -/
theorem c4_restore_after_end_witness :
    endedState.ended = true ∧ endedState.location = "core.relic" ∧
    cmd_restore endedState =
      { endedState with log := endedState.log ++ ["Ending: restore"] } :=
  ⟨rfl, rfl, c4_restore_after_end endedState rfl rfl⟩

/-- C6: a missing save file and a record on which reconstruction raises
are reported and leave the prior state untouched; but a well-parsed
record whose location is not a node of the world crashes the process
uncaught (`enter_node` runs outside the `try`), contradicting the claim
that no load failure is fatal. -/
theorem c6_load_failure :
    (∀ s : PState, cmd_load s SaveFile.missing = some (s, ["No save file found."])) ∧
    (∀ s : PState, cmd_load s SaveFile.malformed =
      some (s, ["Failed to load save file."])) ∧
    cmd_load (fresh_state "ghost") (SaveFile.record badLocRecord) = none := by
  exact ⟨fun s => rfl, fun s => rfl, rfl⟩

theorem apply_decode_flags_flags (s : PState) (r : String) :
    (apply_decode_flags s r).flags =
      (s.flags ∪ (if hasSub "EMBER".data (asciiUpper r).data
          then {"ember_phrase"} else ∅)) ∪
        (if hasSub "LATTICE".data (asciiUpper r).data
          then {"lattice_sigil"} else ∅) := by
  by_cases hE : hasSub "EMBER".data (asciiUpper r).data <;>
  by_cases hL : hasSub "LATTICE".data (asciiUpper r).data <;>
  by_cases hEm : "ember_phrase" ∈ s.flags <;>
  by_cases hLm : "lattice_sigil" ∈ s.flags <;>
    (ext a; simp [apply_decode_flags, hE, hL, hEm, hLm]; try aesop)

theorem apply_decode_flags_log (s : PState) (r : String) :
    (apply_decode_flags s r).log =
      (s.log ++ (if hasSub "EMBER".data (asciiUpper r).data ∧
            "ember_phrase" ∉ s.flags
          then ["Decoded ember phrase"] else [])) ++
        (if hasSub "LATTICE".data (asciiUpper r).data ∧
            "lattice_sigil" ∉ s.flags
          then ["Decoded lattice sigil"] else []) := by
  by_cases hE : hasSub "EMBER".data (asciiUpper r).data <;>
  by_cases hL : hasSub "LATTICE".data (asciiUpper r).data <;>
  by_cases hEm : "ember_phrase" ∈ s.flags <;>
  by_cases hLm : "lattice_sigil" ∈ s.flags <;>
    simp [apply_decode_flags, hE, hL, hEm, hLm]

theorem apply_decode_flags_shape (s : PState) (r : String) :
    apply_decode_flags s r =
      { s with flags := (apply_decode_flags s r).flags
               log := (apply_decode_flags s r).log } := by
  obtain ⟨h1, h2, h3, h4, h5, h6, h7, h8⟩ := apply_decode_flags_fields s r
  ext <;> simp [h1, h2, h3, h4, h5, h6, h7, h8]

/-- C9: after every successful decode the decoded text is scanned
case-insensitively — the `EMBER` and `LATTICE` checks are independent,
each sets its flag exactly when the phrase occurs, appends its log event
exactly when the phrase occurs and the flag was not yet set, and nothing
else of the state changes; decoding the base64 payload
`U0lHSUw6IExBVFRJQ0U=` yields `SIGIL: LATTICE` and sets `lattice_sigil`. -/
theorem c9_decode_flag_unlock :
    (∀ (s : PState) (r : String),
      (apply_decode_flags s r).flags =
        (s.flags ∪ (if hasSub "EMBER".data (asciiUpper r).data
            then {"ember_phrase"} else ∅)) ∪
          (if hasSub "LATTICE".data (asciiUpper r).data
            then {"lattice_sigil"} else ∅) ∧
      (apply_decode_flags s r).log =
        (s.log ++ (if hasSub "EMBER".data (asciiUpper r).data ∧
              "ember_phrase" ∉ s.flags
            then ["Decoded ember phrase"] else [])) ++
          (if hasSub "LATTICE".data (asciiUpper r).data ∧
              "lattice_sigil" ∉ s.flags
            then ["Decoded lattice sigil"] else []) ∧
      apply_decode_flags s r =
        { s with flags := (apply_decode_flags s r).flags
                 log := (apply_decode_flags s r).log }) ∧
    (∀ (s : PState) (args : List String) (r : String),
      decode_result s args = some r →
      cmd_decode s args = apply_decode_flags s r) ∧
    decode_result (fresh_state "ghost") ["b64", "U0lHSUw6IExBVFRJQ0U="] =
      some "SIGIL: LATTICE" ∧
    "lattice_sigil" ∈
      (cmd_decode (fresh_state "ghost") ["b64", "U0lHSUw6IExBVFRJQ0U="]).flags := by
  refine ⟨fun s r => ⟨apply_decode_flags_flags s r, apply_decode_flags_log s r,
    apply_decode_flags_shape s r⟩, fun s args r h => ?_, ?_, ?_⟩
  · unfold cmd_decode
    rw [h]
  · rfl
  · decide

/-- Witness for C9: the successful-decode hypothesis discharged at the
key.b64 payload. -/
theorem c9_decode_flag_unlock_witness :
    decode_result (fresh_state "ghost") ["b64", "U0lHSUw6IExBVFRJQ0U="] =
      some "SIGIL: LATTICE" ∧
    cmd_decode (fresh_state "ghost") ["b64", "U0lHSUw6IExBVFRJQ0U="] =
      apply_decode_flags (fresh_state "ghost") "SIGIL: LATTICE" :=
  ⟨by rfl, c9_decode_flag_unlock.2.1 (fresh_state "ghost") _ "SIGIL: LATTICE" (by rfl)⟩
